import Mathlib

/-!
Verification of the proxy server in src/src/lib/Proxy.ts: the HTTP POST
message path, the per-session listener registry and publish mechanism,
the asset-serving / instrumentation-cache path, the 404 response, and the
WebSocket server creation logic.  Each definition is a shallow embedding
of the corresponding TypeScript function; theorems at the end settle the
specification claims.
-/

namespace InternProxy

/-! ### JSON values and parsing

The POST handler calls the JavaScript builtin JSON.parse twice: once on the
whole body and once per array element (Proxy.ts lines 158 and 164-166).
We embed JSON values and a parser with JavaScript JSON semantics
(restricted to integer numerals and the common string escapes, which is
all the proxy protocol uses).  JSON.parse applied to a non-string value
first coerces it with the JavaScript String() conversion, embedded below
as jsToString.
-/

inductive Json where
  | null : Json
  | bool : Bool → Json
  | num : Int → Json
  | str : String → Json
  | arr : List Json → Json
  | obj : List (String × Json) → Json
deriving Repr

def charIsDigit (c : Char) : Bool := '0' ≤ c && c ≤ '9'

def digitsToNat (ds : List Char) : Nat :=
  ds.foldl (fun a c => a * 10 + (c.toNat - 48)) 0

def jsonWs (c : Char) : Bool := c = ' ' || c = '\n' || c = '\t' || c = '\r'

def skipWs : List Char → List Char
  | [] => []
  | c :: cs => if jsonWs c then skipWs cs else c :: cs

def lbraceChar : Char := Char.ofNat 123

def rbraceChar : Char := Char.ofNat 125

/-- Parse the body of a JSON string literal after the opening quote;
returns the decoded characters and the rest of the input. -/
def parseStringBody : List Char → Option (List Char × List Char)
  | [] => none
  | c :: cs =>
    if c = '"' then some ([], cs)
    else if c = '\\' then
      match cs with
      | [] => none
      | e :: cs2 =>
        let esc : Option Char :=
          if e = '"' then some '"'
          else if e = '\\' then some '\\'
          else if e = '/' then some '/'
          else if e = 'n' then some '\n'
          else if e = 't' then some '\t'
          else if e = 'r' then some '\r'
          else none
        match esc with
        | none => none
        | some ec => (parseStringBody cs2).map (fun p => (ec :: p.1, p.2))
    else (parseStringBody cs).map (fun p => (c :: p.1, p.2))

mutual

def parseVal : Nat → List Char → Option (Json × List Char)
  | 0, _ => none
  | fuel + 1, cs =>
    match skipWs cs with
    | [] => none
    | c :: cs2 =>
      if c = '"' then
        (parseStringBody cs2).map (fun p => (Json.str (String.mk p.1), p.2))
      else if c = '[' then
        match skipWs cs2 with
        | ']' :: r => some (Json.arr [], r)
        | cs3 => parseArrItems fuel cs3 []
      else if c = lbraceChar then
        match skipWs cs2 with
        | [] => none
        | c2 :: r =>
          if c2 = rbraceChar then some (Json.obj [], r)
          else parseObjItems fuel (c2 :: r) []
      else if c = 't' then
        match cs2 with
        | 'r' :: 'u' :: 'e' :: r => some (Json.bool true, r)
        | _ => none
      else if c = 'f' then
        match cs2 with
        | 'a' :: 'l' :: 's' :: 'e' :: r => some (Json.bool false, r)
        | _ => none
      else if c = 'n' then
        match cs2 with
        | 'u' :: 'l' :: 'l' :: r => some (Json.null, r)
        | _ => none
      else if c = '-' then
        let ds := cs2.takeWhile charIsDigit
        if ds.isEmpty then none
        else some (Json.num (-(digitsToNat ds : Int)), cs2.dropWhile charIsDigit)
      else if charIsDigit c then
        let ds := (c :: cs2).takeWhile charIsDigit
        some (Json.num (digitsToNat ds : Int), (c :: cs2).dropWhile charIsDigit)
      else none

def parseArrItems : Nat → List Char → List Json → Option (Json × List Char)
  | 0, _, _ => none
  | fuel + 1, cs, acc =>
    match parseVal fuel cs with
    | none => none
    | some (v, r) =>
      match skipWs r with
      | ',' :: r2 => parseArrItems fuel r2 (acc ++ [v])
      | ']' :: r2 => some (Json.arr (acc ++ [v]), r2)
      | _ => none

def parseObjItems : Nat → List Char → List (String × Json) → Option (Json × List Char)
  | 0, _, _ => none
  | fuel + 1, cs, acc =>
    match skipWs cs with
    | [] => none
    | c :: r =>
      if c = '"' then
        match parseStringBody r with
        | none => none
        | some (k, r1) =>
          match skipWs r1 with
          | ':' :: r2 =>
            match parseVal fuel r2 with
            | none => none
            | some (v, r3) =>
              match skipWs r3 with
              | [] => none
              | ',' :: r4 => parseObjItems fuel r4 (acc ++ [(String.mk k, v)])
              | c2 :: r4 =>
                if c2 = rbraceChar then
                  some (Json.obj (acc ++ [(String.mk k, v)]), r4)
                else none
          | _ => none
      else none

end

/-- JSON.parse on a string: parse one value and require only whitespace
after it. -/
def jsonParse (s : String) : Option Json :=
  match parseVal (2 * s.data.length + 8) s.data with
  | some (v, r) => if (skipWs r).isEmpty then some v else none
  | none => none

mutual

/-- The JavaScript String() coercion that JSON.parse applies to a
non-string argument: a plain object becomes "[object Object]", an array
joins its elements with commas (null elements becoming empty). -/
def jsToString : Json → String
  | .null => "null"
  | .bool true => "true"
  | .bool false => "false"
  | .num n => toString n
  | .str s => s
  | .arr xs => jsArrJoin xs
  | .obj _ => "[object Object]"

def jsArrJoin : List Json → String
  | [] => ""
  | [x] => jsArrElem x
  | x :: xs => jsArrElem x ++ "," ++ jsArrJoin xs

def jsArrElem : Json → String
  | .null => ""
  | .bool true => "true"
  | .bool false => "false"
  | .num n => toString n
  | .str s => s
  | .arr xs => jsArrJoin xs
  | .obj _ => "[object Object]"

end

/-! ### The POST message path (Proxy.ts `_handler`, lines 148-183)

The handler parses the body as JSON, wraps a non-array result in a
one-element array, applies JSON.parse to every element of the array (a
second decode, with the String() coercion for non-string elements), and
then submits every decoded message via `_handleMessage`.  `_handleMessage`
(lines 302-306) always calls `_publish` and returns the publish promise
only when `getShouldWait` says so; otherwise it returns an already
resolved promise, so the 204/500 answer only observes deliveries the wait
policy awaits.  A thrown parse error is caught and answered with 500
before any message is submitted.
-/

/-- The second, per-element decode of Proxy.ts lines 164-166
(`rawMessages.map(messageString => JSON.parse(messageString))`): the map
throws at the first element whose decode fails, embedded as returning
none. -/
def decodeEach : List Json → Option (List Json)
  | [] => some []
  | m :: rest =>
    match jsonParse (jsToString m) with
    | none => none
    | some v => (decodeEach rest).map (fun vs => v :: vs)

/-- Body normalization of Proxy.ts lines 158-166: parse the body, wrap a
non-array in a singleton array, then JSON.parse every element. -/
def decodeMessages (body : String) : Option (List Json) :=
  match jsonParse body with
  | none => none
  | some (Json.arr xs) => decodeEach xs
  | some v => decodeEach [v]

/-- The POST branch of `_handler` (lines 156-183).  `sw m` embeds
`getShouldWait(this.runInSync, m)` (from ./util, outside src) and
`dok m` the aggregate success of the listener invocations for message
`m`.  Returns the HTTP status code and the list of messages submitted to
`_handleMessage` (each of which is published to its session listeners);
a parse failure is caught before any submission, giving 500 and no
submissions. -/
def handlePost (sw dok : Json → Bool) (body : String) : Nat × List Json :=
  match decodeMessages body with
  | none => (500, [])
  | some msgs =>
    ((if msgs.all (fun m => !sw m || dok m) then 204 else 500), msgs)

/-! ### Sessions, subscribe and publish
(Proxy.ts `_getSession` lines 128-134, `subscribe` lines 117-126,
`_publish` lines 323-326, `_handleMessage` lines 302-306)

A session holds only a listener list: there is no sequence cursor and no
pending queue anywhere in the class (`_sessions` maps an id to
`{ listeners }`).  `_publish` immediately invokes every listener of the
message session with `(message.name, message.data)`; nothing inspects a
sequence number.  Listeners are identified by Nat tags; an Invocation
records one listener call together with the sequence number carried by
the event, so delivery order can be stated. -/

/-- The Message shape used by the proxy (`Message` from ./Channel, outside
src; fields from the spec data model: sessionId, sequence, name,
payload). -/
structure Message where
  sessionId : String
  sequence : Int
  name : String
  payload : Json

/-- One listener invocation: which listener was called, with which event
name, for the event carrying which sequence number. -/
structure Invocation where
  listener : Nat
  name : String
  sequence : Int
deriving Repr, DecidableEq

/-- `_sessions`: session id to listener list, in insertion order. -/
abbrev Sessions := List (String × List Nat)

def lookupSession (ss : Sessions) (sid : String) : Option (List Nat) :=
  (ss.find? (fun p => p.1 == sid)).map (fun p => p.2)

/-- `_getSession` (lines 128-134): return the session, creating an empty
one on first reference. -/
def getSession (ss : Sessions) (sid : String) : Sessions × List Nat :=
  match lookupSession ss sid with
  | some ls => (ss, ls)
  | none => (ss ++ [(sid, [])], [])

/-- `subscribe` (lines 117-126): get-or-create the session and push the
listener. -/
def subscribe (ss : Sessions) (sid : String) (l : Nat) : Sessions :=
  match lookupSession ss sid with
  | some _ => ss.map (fun p => if p.1 == sid then (p.1, p.2 ++ [l]) else p)
  | none => ss ++ [(sid, [l])]

/-- `_publish` (lines 323-326): look up (or create) the session of the
message and invoke every registered listener, in registration order,
with the message. -/
def publish (ss : Sessions) (m : Message) : Sessions × List Invocation :=
  let r := getSession ss m.sessionId
  (r.1, r.2.map (fun l => ⟨l, m.name, m.sequence⟩))

/-- A batch of messages as processed by `_handler`/`_handleMessage`:
`messages.map(message => this._handleMessage(message))` calls `_publish`
once per message, synchronously, in arrival order.  Returns the final
session map and the concatenated invocation trace. -/
def handleMessages (ss : Sessions) : List Message → Sessions × List Invocation
  | [] => (ss, [])
  | m :: rest =>
    let r := publish ss m
    let r2 := handleMessages r.1 rest
    (r2.1, r.2 ++ r2.2)

/-! ### Asset serving (`_handleFile`, lines 191-300; `_send404`, lines
328-334; GET/HEAD dispatch in `_handler`, lines 137-147)

External collaborators (path join/resolve from the path module,
normalizePath from ./node/util, the mime lookup and the instrument
transform) are abstract function fields of the configuration; the
filesystem is an abstract map from path to file info, sampled once per
fs.stat and once per fs.readFile. -/

structure FileInfo where
  mtime : Int
  size : Nat
  content : String
deriving Repr, DecidableEq

/-- A snapshot of the filesystem as observed by one fs.stat or
fs.readFile call. -/
abbrev Fs := String → Option FileInfo

structure CacheEntry where
  mtime : Int
  data : String
deriving Repr, DecidableEq

/-- `_codeCache`: absolute path to mtime and transformed content. -/
abbrev CodeCache := List (String × CacheEntry)

def cacheLookup (c : CodeCache) (p : String) : Option CacheEntry :=
  (c.find? (fun q => q.1 == p)).map (fun q => q.2)

def cacheInsert (c : CodeCache) (p : String) (e : CacheEntry) : CodeCache :=
  match cacheLookup c p with
  | some _ => c.map (fun q => if q.1 == p then (p, e) else q)
  | none => c ++ [(p, e)]

/-- The `excludeInstrumentation` option: a boolean or a pattern tested
against the un-resolved request path (lines 234-239). -/
inductive ExcludeInstrumentation where
  | flag : Bool → ExcludeInstrumentation
  | pattern : (String → Bool) → ExcludeInstrumentation

/-- `this.excludeInstrumentation === true || (this.excludeInstrumentation
&& this.excludeInstrumentation.test(file))`: a true flag always applies,
a false flag never, a pattern applies when it matches. -/
def excludeApplies : ExcludeInstrumentation → String → Bool
  | .flag b, _ => b
  | .pattern p, f => p f

/-- Proxy configuration, with the external path/mime/instrument
collaborators as abstract functions.  `internBasePath` is the
precomputed `resolve(join(__dirname, ../..))` of line 216;
`instr data path` is `instrument(data, path, this.instrumenterOptions)`
with the configured options applied. -/
structure ProxyConfig where
  basePath : String
  internBasePath : String
  instrument : Bool
  excludeInstrumentation : ExcludeInstrumentation
  join : String → String → String
  resolve : String → String
  normalizePath : String → String
  mimeLookup : String → Option String
  instr : String → String → String

def listIsPrefixOf : List Char → List Char → Bool
  | [], _ => true
  | _ :: _, [] => false
  | a :: as, b :: bs => a == b && listIsPrefixOf as bs

/-- JavaScript String.prototype.startsWith / the anchored regex test of
line 215. -/
def strStartsWith (s pre : String) : Bool := listIsPrefixOf pre.data s.data

/-- JavaScript String.prototype.endsWith / an end-anchored regex test. -/
def strEndsWith (s post : String) : Bool :=
  listIsPrefixOf post.data.reverse s.data.reverse

/-- Buffer.byteLength with utf8 encoding (line 200). -/
def byteLength (s : String) : Nat :=
  s.data.foldl (fun n c => n + c.utf8Size) 0

/-- The regex `^\/+([^?]*)` of line 205: require at least one leading
slash, drop all leading slashes, capture up to the first question mark.
`exec` returns null when the url does not start with a slash. -/
def extractFile (url : String) : Option String :=
  match url.data with
  | [] => none
  | c :: _ =>
    if c = '/' then
      some (String.mk ((url.data.dropWhile (fun d => d = '/')).takeWhile (fun d => d ≠ '?')))
    else none

def strContainsSub (s pat : String) : Bool :=
  (List.range (s.data.length + 1)).any
    (fun i => (s.data.drop i).take pat.data.length == pat.data)

/-- The regex `\.js(?:$|\?)` of line 138, tested against the request url:
the url ends in .js or contains .js immediately followed by a question
mark. -/
def isJsUrl (url : String) : Bool :=
  strEndsWith url ".js" || strContainsSub url ".js?"

/-- The reserved internal-assets path of line 215. -/
def internReserved : String := "__intern/"

/-- `path.basename`: the last slash-separated component. -/
def basename (p : String) : String :=
  String.mk (p.data.foldl (fun acc c => if c = '/' then [] else acc ++ [c]) [])

structure Resolved where
  wholePath : String
  shouldInstrument : Bool

/-- Path resolution of `_handleFile` lines 205-239: extract the file part
of the url; a reserved-prefix path resolves against the installation
directory with instrumentation forced off, any other path resolves
against the configured base directory; normalize; append index.html to a
directory path; finally clear instrumentation when the exclusion setting
applies to the un-resolved file part. -/
def resolveRequest (cfg : ProxyConfig) (url : String) (shouldInstrument0 : Bool) :
    Option Resolved :=
  match extractFile url with
  | none => none
  | some file =>
    let step1 : String × Bool :=
      if strStartsWith file internReserved then
        (cfg.join cfg.internBasePath (String.mk (file.data.drop internReserved.data.length)), false)
      else
        (cfg.resolve (cfg.join cfg.basePath file), shouldInstrument0)
    let wp1 := cfg.normalizePath step1.1
    let wp2 := if strEndsWith wp1 "/" then wp1 ++ "index.html" else wp1
    let si := if excludeApplies cfg.excludeInstrumentation file then false else step1.2
    some ⟨wp2, si⟩

/-- `lookup(basename(wholePath)) || application/octet-stream`
(line 241). -/
def contentTypeFor (cfg : ProxyConfig) (wholePath : String) : String :=
  (cfg.mimeLookup (basename wholePath)).getD "application/octet-stream"

/-- The fixed 404 body of `_send404` (lines 328-334): a constant HTML
document followed by a comment of 511 padding dots
(`new Array(512).join` with a dot produces 511 dots). -/
def send404Body : String :=
  "<!DOCTYPE html><title>404 Not Found</title><h1>404 Not Found</h1>" ++
    "<!-- " ++ String.mk (List.replicate 511 '.') ++ " -->"

/-- What `_handleFile` writes to the response. `okData` is the `send`
helper of lines 197-203 (status 200, Content-Length in utf8 bytes of the
data); `okStream` pipes the raw file with Content-Length from the stat
size; `okHead` is the HEAD answer with the same headers and no body;
`notFound` is `_send404`. -/
inductive Response where
  | okData (contentType : String) (contentLength : Nat) (body : String)
  | okStream (contentType : String) (contentLength : Nat)
  | okHead (contentType : String) (contentLength : Nat)
  | notFound (body : String)
deriving Repr, DecidableEq

/-- Outcome of one `_handleFile` call: the code cache afterwards, what
was written to the response (none when the handler silently abandoned
it), and how many times the instrument transform ran. -/
structure FileOutcome where
  cache : CodeCache
  response : Option Response
  transformCount : Nat

/-- The body of the fs.stat callback of lines 242-299, after path
resolution.  `fsStat` is the filesystem as sampled by fs.stat, `fsRead`
as sampled by fs.readFile (they may differ when the file changes in
between).  `upAtStat` and `upAtRead` embed the truthiness of
`this.server` when the stat and read callbacks run; each callback first
abandons the response when the server has been stopped. -/
def handleFileResolved (cfg : ProxyConfig) (fsStat fsRead : Fs) (cache : CodeCache)
    (r : Resolved) (omitContent : Bool) (upAtStat upAtRead : Bool) : FileOutcome :=
  let ct := contentTypeFor cfg r.wholePath
  if !upAtStat then ⟨cache, none, 0⟩
  else
    match fsStat r.wholePath with
    | none => ⟨cache, some (Response.notFound send404Body), 0⟩
    | some st =>
      if r.shouldInstrument then
        let hit :=
          match cacheLookup cache r.wholePath with
          | some e => e.mtime == st.mtime
          | none => false
        if hit then
          match cacheLookup cache r.wholePath with
          | some e => ⟨cache, some (Response.okData ct (byteLength e.data) e.data), 0⟩
          | none => ⟨cache, none, 0⟩
        else
          if !upAtRead then ⟨cache, none, 0⟩
          else
            match fsRead r.wholePath with
            | none => ⟨cache, some (Response.notFound send404Body), 0⟩
            | some f =>
              let d := cfg.instr f.content r.wholePath
              ⟨cacheInsert cache r.wholePath ⟨st.mtime, d⟩,
                some (Response.okData ct (byteLength d) d), 1⟩
      else
        if omitContent then ⟨cache, some (Response.okHead ct st.size), 0⟩
        else ⟨cache, some (Response.okStream ct st.size), 0⟩

/-- `_handleFile` (lines 191-300): resolve the request path, then run the
stat callback.  Returns none when the url has no leading slash (the
regex exec of line 205 returns null and the handler crashes before
writing anything). -/
def handleFile (cfg : ProxyConfig) (fsStat fsRead : Fs) (cache : CodeCache)
    (url : String) (shouldInstrument0 omitContent upAtStat upAtRead : Bool) :
    Option FileOutcome :=
  (resolveRequest cfg url shouldInstrument0).map
    (fun r => handleFileResolved cfg fsStat fsRead cache r omitContent upAtStat upAtRead)

/-- The GET branch of `_handler` (lines 137-144): a JavaScript-looking
url requests instrumentation per the `instrument` option, any other url
requests none. -/
def handleGet (cfg : ProxyConfig) (fsStat fsRead : Fs) (cache : CodeCache)
    (url : String) (upAtStat upAtRead : Bool) : Option FileOutcome :=
  if isJsUrl url then
    handleFile cfg fsStat fsRead cache url cfg.instrument false upAtStat upAtRead
  else
    handleFile cfg fsStat fsRead cache url false false upAtStat upAtRead

/-- The WebSocket server creation in `start` (lines 76-84): created only
when `socketPort != null`, always listening on `this.port + 1`. -/
def wsServerPort (port : Int) (socketPort : Option Int) : Option Int :=
  match socketPort with
  | some _ => some (port + 1)
  | none => none

/-! ### Concrete inputs used by witnesses and counterexamples -/

def quoteStr : String := "\""

def objLeft : String := "\x7b"

def objRight : String := "\x7d"

/-- A POST body that is one plain JSON event object. -/
def singleObjectBody : String :=
  objLeft ++ quoteStr ++ "sessionId" ++ quoteStr ++ ":" ++ quoteStr ++ "a" ++ quoteStr ++
    "," ++ quoteStr ++ "name" ++ quoteStr ++ ":" ++ quoteStr ++ "ev" ++ quoteStr ++ objRight

/-- A POST body that is a JSON array of JSON-encoded event strings. -/
def goodBatchBody : String := "[" ++ quoteStr ++ "7" ++ quoteStr ++ "]"

/-- A POST body that is a JSON array whose second element fails the
per-element decode. -/
def badBatchBody : String :=
  "[" ++ quoteStr ++ "1" ++ quoteStr ++ "," ++ quoteStr ++ "nope" ++ quoteStr ++ "]"

/-- Two events for one session arriving in emission order 0 then 2. -/
def wMsgs : List Message := [⟨"s", 0, "a", Json.null⟩, ⟨"s", 2, "b", Json.null⟩]

/-- A concrete configuration with transparent collaborator functions. -/
def wCfg : ProxyConfig :=
  { basePath := "/base"
    internBasePath := "/install"
    instrument := true
    excludeInstrumentation := ExcludeInstrumentation.flag false
    join := fun a b => a ++ "/" ++ b
    resolve := fun p => p
    normalizePath := fun p => p
    mimeLookup := fun _ => none
    instr := fun d p => "!" ++ d ++ "@" ++ p }

/-- A filesystem with one JavaScript file. -/
def wFs : Fs := fun p => if p == "/base/a.js" then some ⟨5, 3, "abc"⟩ else none

/-- The same file after its mtime (and content) changed. -/
def wFs2 : Fs := fun p => if p == "/base/a.js" then some ⟨6, 4, "abcd"⟩ else none

/-- An empty filesystem. -/
def wFsNone : Fs := fun _ => none

/-- A cache holding a stale entry for the file of wFs2. -/
def wStaleCache : CodeCache := [("/base/a.js", ⟨5, "old"⟩)]

end InternProxy

namespace InternProxy

/-! ### Helper lemmas -/

theorem publish_existing (ss : Sessions) (sid : String) (ls : List Nat)
    (h : lookupSession ss sid = some ls) (m : Message) (hm : m.sessionId = sid) :
    publish ss m = (ss, ls.map (fun l => ⟨l, m.name, m.sequence⟩)) := by
  simp [publish, getSession, hm, h]

theorem cacheLookup_append_of_none (c : CodeCache) (p : String) (e : CacheEntry)
    (h : cacheLookup c p = none) : cacheLookup (c ++ [(p, e)]) p = some e := by
  induction c with
  | nil => simp [cacheLookup]
  | cons a rest ih =>
    unfold cacheLookup at h ⊢
    cases hap : (a.1 == p) with
    | true => simp [List.find?, hap] at h
    | false =>
      simp only [List.cons_append, List.find?, hap] at h ⊢
      exact ih h

theorem decodeEach_eq_none (xs : List Json) (x : Json) (hx : x ∈ xs)
    (hbad : jsonParse (jsToString x) = none) : decodeEach xs = none := by
  induction xs with
  | nil => cases hx
  | cons a rest ih =>
    rcases List.mem_cons.mp hx with h1 | h1
    · subst h1; simp [decodeEach, hbad]
    · cases h : jsonParse (jsToString a) with
      | none => simp [decodeEach, h]
      | some v => simp [decodeEach, h, ih h1]

/-! ### Claim theorems -/

/-- C1, counterexample: with one listener subscribed to session s, the
arrival permutation (seq 1, seq 0) of the events 0..1 makes the listener
observe sequence 1 before sequence 0, not the order 0,1: the proxy has
no reorder buffer and publishes every event on arrival. -/
theorem delivery_follows_arrival_not_sequence :
    ((handleMessages (subscribe [] "s" 0)
        [⟨"s", 1, "b", Json.null⟩, ⟨"s", 0, "a", Json.null⟩]).2.map Invocation.sequence
      = [1, 0]) ∧
    ((handleMessages (subscribe [] "s" 0)
        [⟨"s", 1, "b", Json.null⟩, ⟨"s", 0, "a", Json.null⟩]).2.map Invocation.sequence
      ≠ [0, 1]) := by
  constructor <;> decide

/-- C1 (amended): for every session, listeners are invoked for submitted
events in exactly the arrival order, each event being fanned out to the
listener list in registration order; listeners observe the sequence
numbers 0,1,...,N-1 only when the events arrive in that order, since no
reordering is performed. -/
theorem delivery_in_arrival_order (ss : Sessions) (sid : String) (ls : List Nat)
    (h : lookupSession ss sid = some ls) (msgs : List Message)
    (hm : ∀ m ∈ msgs, m.sessionId = sid) :
    (handleMessages ss msgs).2 =
      msgs.flatMap (fun m => ls.map (fun l => ⟨l, m.name, m.sequence⟩)) := by
  induction msgs with
  | nil => rfl
  | cons m rest ih =>
    have h1 := publish_existing ss sid ls h m (hm m (List.mem_cons_self m rest))
    have h2 := ih (fun x hx => hm x (List.mem_cons_of_mem m hx))
    simp [handleMessages, h1, h2]

/-- C1 witness: two events arriving in emission order are delivered in
that order to the single subscribed listener. -/
theorem delivery_in_arrival_order_witness :
    (handleMessages (subscribe [] "s" 0) wMsgs).2 =
      wMsgs.flatMap (fun m => [0].map (fun l => ⟨l, m.name, m.sequence⟩)) :=
  delivery_in_arrival_order (subscribe [] "s" 0) "s" [0] rfl wMsgs (by
    intro m hm
    rcases List.mem_cons.mp hm with h1 | h1
    · subst h1; rfl
    · rcases List.mem_cons.mp h1 with h2 | h2
      · subst h2; rfl
      · cases h2)

/-- C2, counterexample: after the event with sequence 0 is delivered,
submitting sequence 0 again is not rejected: the listener is invoked a
second time, because the proxy keeps no last-delivered cursor and no
pending queue and never validates sequence numbers. -/
theorem duplicate_sequence_delivered :
    ((handleMessages (subscribe [] "s" 0)
        [⟨"s", 0, "e", Json.null⟩, ⟨"s", 0, "e", Json.null⟩]).2
      = [⟨0, "e", 0⟩, ⟨0, "e", 0⟩]) ∧
    ((handleMessages (subscribe [] "s" 0)
        [⟨"s", 0, "e", Json.null⟩, ⟨"s", 0, "e", Json.null⟩]).2
      ≠ [⟨0, "e", 0⟩]) := by
  constructor <;> decide

/-- C2 (amended): the proxy performs no sequence-number validation:
every submitted event, whatever its sequence number (including one less
than or equal to that of a previously delivered event), is published to
all the session listeners, and the session map, which holds only
listener lists (there is no lastDelivered value and no pending queue),
is left unchanged by the delivery. -/
theorem no_sequence_rejection (ss : Sessions) (sid : String) (ls : List Nat)
    (h : lookupSession ss sid = some ls) (m : Message) (hm : m.sessionId = sid) :
    publish ss m = (ss, ls.map (fun l => ⟨l, m.name, m.sequence⟩)) :=
  publish_existing ss sid ls h m hm

/-- C2 witness: a concrete duplicate delivery to the single subscribed
listener, leaving the session map unchanged. -/
theorem no_sequence_rejection_witness :
    publish (subscribe [] "s" 0) ⟨"s", 0, "dup", Json.null⟩ =
      (subscribe [] "s" 0, [⟨0, "dup", 0⟩]) :=
  no_sequence_rejection (subscribe [] "s" 0) "s" [0] rfl ⟨"s", 0, "dup", Json.null⟩ rfl

/-- C3, counterexample: a POST body consisting of one plain JSON event
object parses, but the per-element second JSON.parse coerces the object
to the string [object Object], which is not valid JSON, so the handler
answers 500 and submits no event, even though every delivery would have
succeeded. -/
theorem single_object_body_post_fails :
    jsonParse singleObjectBody =
      some (Json.obj [("sessionId", Json.str "a"), ("name", Json.str "ev")]) ∧
    handlePost (fun _ => true) (fun _ => true) singleObjectBody = (500, []) :=
  ⟨rfl, rfl⟩

/-- C3 (amended): the POST handler parses the body as JSON, wraps a
non-array result in a one-element array, and JSON-decodes every element;
only JSON-encoded event strings survive this second decode (a plain
event object does not).  When the whole normalization fails the answer
is 500 with no event submitted; when it succeeds and every awaited
delivery succeeds the answer is 204 with exactly the decoded events
submitted. -/
theorem post_batch_decode_status (sw dok : Json → Bool) (body : String) :
    (decodeMessages body = none → handlePost sw dok body = (500, [])) ∧
    (∀ msgs, decodeMessages body = some msgs →
      (∀ m ∈ msgs, sw m = true → dok m = true) →
      handlePost sw dok body = (204, msgs)) := by
  constructor
  · intro h; simp [handlePost, h]
  · intro msgs h hok
    have hall : msgs.all (fun m => !sw m || dok m) = true := by
      simp only [List.all_eq_true]
      intro m hm
      cases hsw : sw m with
      | false => simp
      | true => simp [hok m hm hsw]
    simp [handlePost, h, hall]

/-- C3 witness: an array of one JSON-encoded event string decodes and,
with all deliveries succeeding, is answered 204. -/
theorem post_batch_decode_status_witness :
    handlePost (fun _ => true) (fun _ => true) goodBatchBody = (204, [Json.num 7]) :=
  (post_batch_decode_status (fun _ => true) (fun _ => true) goodBatchBody).2
    [Json.num 7] rfl (fun _ _ _ => rfl)

/-- C4: requesting the same JavaScript file twice through GET with
instrumentation in effect, with the filesystem unchanged in between,
writes the same response both times and runs the instrument transform
exactly once: the second request is served from the code cache. -/
theorem unchanged_file_single_transform (cfg : ProxyConfig) (fs : Fs) (cache : CodeCache)
    (url : String) (res : Resolved) (fi : FileInfo)
    (hjs : isJsUrl url = true)
    (hres : resolveRequest cfg url cfg.instrument = some res)
    (hsi : res.shouldInstrument = true)
    (hfi : fs res.wholePath = some fi)
    (hmiss : cacheLookup cache res.wholePath = none) :
    ∃ c1 r1,
      handleGet cfg fs fs cache url true true = some ⟨c1, some r1, 1⟩ ∧
      handleGet cfg fs fs c1 url true true = some ⟨c1, some r1, 0⟩ := by
  refine ⟨cacheInsert cache res.wholePath ⟨fi.mtime, cfg.instr fi.content res.wholePath⟩,
    Response.okData (contentTypeFor cfg res.wholePath)
      (byteLength (cfg.instr fi.content res.wholePath))
      (cfg.instr fi.content res.wholePath), ?_, ?_⟩
  · simp [handleGet, hjs, handleFile, hres, handleFileResolved, hfi, hsi, hmiss]
  · have hl := cacheLookup_append_of_none cache res.wholePath
      ⟨fi.mtime, cfg.instr fi.content res.wholePath⟩ hmiss
    simp [handleGet, hjs, handleFile, hres, handleFileResolved, hfi, hsi,
      cacheInsert, hmiss, hl]

/-- C4 witness: a concrete unchanged file served twice: one transform,
identical responses, the second from the cache. -/
theorem unchanged_file_single_transform_witness :
    ∃ c1 r1,
      handleGet wCfg wFs wFs [] "/a.js" true true = some ⟨c1, some r1, 1⟩ ∧
      handleGet wCfg wFs wFs c1 "/a.js" true true = some ⟨c1, some r1, 0⟩ :=
  unchanged_file_single_transform wCfg wFs [] "/a.js" ⟨"/base/a.js", true⟩ ⟨5, 3, "abc"⟩
    rfl rfl rfl rfl rfl

/-- C5: when the mtime observed at the stat differs from the cached one,
the handler re-reads the file, re-invokes the instrument transform on
the newly read content, serves the new transform result, and stores it
keyed by the path together with the mtime observed at the stat (even
when the read observes a later state of the file). -/
theorem changed_file_retransform (cfg : ProxyConfig) (fsStat2 fsRead2 : Fs)
    (cache : CodeCache) (url : String) (res : Resolved)
    (e : CacheEntry) (fi2 f2 : FileInfo)
    (hjs : isJsUrl url = true)
    (hres : resolveRequest cfg url cfg.instrument = some res)
    (hsi : res.shouldInstrument = true)
    (hc : cacheLookup cache res.wholePath = some e)
    (hstat : fsStat2 res.wholePath = some fi2)
    (hmt : (e.mtime == fi2.mtime) = false)
    (hread : fsRead2 res.wholePath = some f2) :
    handleGet cfg fsStat2 fsRead2 cache url true true =
      some ⟨cacheInsert cache res.wholePath ⟨fi2.mtime, cfg.instr f2.content res.wholePath⟩,
        some (Response.okData (contentTypeFor cfg res.wholePath)
          (byteLength (cfg.instr f2.content res.wholePath))
          (cfg.instr f2.content res.wholePath)), 1⟩ := by
  simp [handleGet, hjs, handleFile, hres, handleFileResolved, hstat, hsi, hc, hmt, hread]

/-- C5 witness: a stale cache entry with mtime 5 against a file now at
mtime 6 causes a fresh read, a fresh transform and a cache update keyed
by the new mtime. -/
theorem changed_file_retransform_witness :
    handleGet wCfg wFs2 wFs2 wStaleCache "/a.js" true true =
      some ⟨cacheInsert wStaleCache "/base/a.js" ⟨6, wCfg.instr "abcd" "/base/a.js"⟩,
        some (Response.okData (contentTypeFor wCfg "/base/a.js")
          (byteLength (wCfg.instr "abcd" "/base/a.js"))
          (wCfg.instr "abcd" "/base/a.js")), 1⟩ :=
  changed_file_retransform wCfg wFs2 wFs2 wStaleCache "/a.js" ⟨"/base/a.js", true⟩
    ⟨5, "old"⟩ ⟨6, 4, "abcd"⟩ ⟨6, 4, "abcd"⟩ rfl rfl rfl rfl rfl rfl rfl

/-- C6: when the server has been stopped before the stat callback runs,
the handler writes nothing and changes nothing; likewise a file read
already in flight at stop time completes without any observable
response. -/
theorem stopped_server_no_write (cfg : ProxyConfig) (fsStat fsRead : Fs)
    (cache : CodeCache) (url : String) (si om : Bool) (res : Resolved)
    (hres : resolveRequest cfg url si = some res) :
    (∀ ur : Bool,
      handleFile cfg fsStat fsRead cache url si om false ur = some ⟨cache, none, 0⟩) ∧
    (res.shouldInstrument = true → cacheLookup cache res.wholePath = none →
      ∀ fi : FileInfo, fsStat res.wholePath = some fi →
        handleFile cfg fsStat fsRead cache url si om true false = some ⟨cache, none, 0⟩) := by
  constructor
  · intro ur
    simp [handleFile, hres, handleFileResolved]
  · intro hsi hmiss fi hfi
    simp [handleFile, hres, handleFileResolved, hfi, hsi, hmiss]

/-- C6 witness: concrete stopped-server completions write nothing. -/
theorem stopped_server_no_write_witness :
    handleFile wCfg wFs wFs [] "/a.js" true false false true = some ⟨[], none, 0⟩ ∧
    handleFile wCfg wFs wFs [] "/a.js" true false true false = some ⟨[], none, 0⟩ :=
  ⟨(stopped_server_no_write wCfg wFs wFs [] "/a.js" true false ⟨"/base/a.js", true⟩ rfl).1 true,
    (stopped_server_no_write wCfg wFs wFs [] "/a.js" true false ⟨"/base/a.js", true⟩ rfl).2
      rfl rfl ⟨5, 3, "abc"⟩ rfl⟩

/-- C7: a request whose file part carries the reserved internal prefix is
resolved against the installation directory (the configured base
directory plays no part) and its instrumentation flag is forced off,
whatever the requested flag and the exclusion setting are. -/
theorem intern_reserved_resolution (cfg : ProxyConfig) (url file : String) (si : Bool)
    (hex : extractFile url = some file)
    (hpre : strStartsWith file internReserved = true) :
    resolveRequest cfg url si =
      some ⟨(let wp := cfg.normalizePath
              (cfg.join cfg.internBasePath (String.mk (file.data.drop internReserved.data.length)));
            if strEndsWith wp "/" then wp ++ "index.html" else wp), false⟩ ∧
    ∀ b : String, resolveRequest { cfg with basePath := b } url si = resolveRequest cfg url si := by
  constructor
  · simp [resolveRequest, hex, hpre]
  · intro b
    simp [resolveRequest, hex, hpre]

/-- C7 witness: a concrete reserved-prefix request resolves against the
installation directory with instrumentation off. -/
theorem intern_reserved_resolution_witness :
    resolveRequest wCfg "/__intern/x.html" true =
      some ⟨(let wp := wCfg.normalizePath
              (wCfg.join wCfg.internBasePath
                (String.mk ("__intern/x.html".data.drop internReserved.data.length)));
            if strEndsWith wp "/" then wp ++ "index.html" else wp), false⟩ :=
  (intern_reserved_resolution wCfg "/__intern/x.html" "__intern/x.html" true rfl rfl).1

set_option maxRecDepth 8192 in
/-- C8: a stat failure is answered with the fixed 404 HTML body, the same
bytes whatever the request and whatever the underlying stat error, and
that body is longer than the 512-byte friendly-error-page threshold. -/
theorem missing_asset_fixed_404 (cfg : ProxyConfig) (fsStat fsRead : Fs)
    (cache : CodeCache) (url : String) (si om ur : Bool) (res : Resolved)
    (hres : resolveRequest cfg url si = some res)
    (hstat : fsStat res.wholePath = none) :
    handleFile cfg fsStat fsRead cache url si om true ur =
      some ⟨cache, some (Response.notFound send404Body), 0⟩ ∧
    512 < byteLength send404Body := by
  constructor
  · simp [handleFile, hres, handleFileResolved, hstat]
  · decide

/-- C8 witness: a concrete nonexistent path gets the fixed padded 404. -/
theorem missing_asset_fixed_404_witness :
    handleFile wCfg wFsNone wFsNone [] "/nope.txt" false false true true =
      some ⟨[], some (Response.notFound send404Body), 0⟩ ∧
    512 < byteLength send404Body :=
  missing_asset_fixed_404 wCfg wFsNone wFsNone [] "/nope.txt" false false true
    ⟨"/base/nope.txt", false⟩ rfl rfl

/-- C9: the WebSocket server is created exactly when socketPort is
configured, and it then listens on the primary port plus one; the
configured socketPort value itself never influences the listening
port. -/
theorem ws_server_port_plus_one (p : Int) :
    wsServerPort p none = none ∧ ∀ v : Int, wsServerPort p (some v) = some (p + 1) :=
  ⟨rfl, fun _ => rfl⟩

/-- C10: when the POST body is a JSON array with at least one element
whose per-element decode fails, the answer is 500 and no event of the
batch is submitted to any listener: the element map of line 164 throws
before the delivery loop of line 168 starts. -/
theorem bad_array_element_blocks_batch (sw dok : Json → Bool) (body : String)
    (xs : List Json) (h : jsonParse body = some (Json.arr xs))
    (x : Json) (hx : x ∈ xs) (hbad : jsonParse (jsToString x) = none) :
    handlePost sw dok body = (500, []) := by
  have hd : decodeMessages body = none := by
    simp [decodeMessages, h, decodeEach_eq_none xs x hx hbad]
  simp [handlePost, hd]

/-- C10 witness: a concrete array with one undecodable element is
answered 500 with no deliveries. -/
theorem bad_array_element_blocks_batch_witness :
    handlePost (fun _ => true) (fun _ => true) badBatchBody = (500, []) :=
  bad_array_element_blocks_batch (fun _ => true) (fun _ => true) badBatchBody
    [Json.str "1", Json.str "nope"] rfl (Json.str "nope")
    (List.mem_cons_of_mem (Json.str "1") (List.mem_cons_self (Json.str "nope") []))
    rfl

end InternProxy
